import Mathlib

/-!
Verification of the generic-instantiation subsystem of the Carbon toolchain
semantic IR (`toolchain/sem_ir/generic.h` and `toolchain/check/eval.h`).

Id types follow the toolchain's `IdBase` convention: an id is a signed index,
`-1` is the `Invalid` sentinel, and `is_valid` tests for it.  `ConstantId`
additionally has the distinguished `NotConstant` sentinel (a valid answer
meaning "known to be of runtime phase"), distinct from `Invalid`
("not yet computed").
-/

namespace CarbonSemIR

/-- An instruction id (`SemIR::InstId`): index into the instruction store. -/
structure InstId where
  index : Int
deriving DecidableEq, Repr

/-- The invalid instruction id sentinel. -/
def InstId.Invalid : InstId := ⟨-1⟩

/-- An instruction-block id (`SemIR::InstBlockId`). -/
structure InstBlockId where
  index : Int
deriving DecidableEq, Repr

/-- The invalid instruction-block id sentinel (`InstBlockId::Invalid`). -/
def InstBlockId.Invalid : InstBlockId := ⟨-1⟩

/-- A generic id (`SemIR::GenericId`): index into the `GenericStore`. -/
structure GenericId where
  index : Int
deriving DecidableEq, Repr

/-- The invalid generic id sentinel. -/
def GenericId.Invalid : GenericId := ⟨-1⟩

/-- `IdBase::is_valid`: an id is valid when it is not the invalid sentinel. -/
def GenericId.is_valid (id : GenericId) : Bool := id.index ≠ -1

/-- A generic-instance id (`SemIR::GenericInstanceId`). -/
structure GenericInstanceId where
  index : Int
deriving DecidableEq, Repr

/-- The invalid generic-instance id sentinel (`GenericInstanceId::Invalid`). -/
def GenericInstanceId.Invalid : GenericInstanceId := ⟨-1⟩

/-- A constant id (`SemIR::ConstantId`). -/
structure ConstantId where
  index : Int
deriving DecidableEq, Repr

/-- The invalid constant id sentinel: "not yet computed / unknown". -/
def ConstantId.Invalid : ConstantId := ⟨-1⟩

/-- The `NotConstant` sentinel: "known to be of runtime phase".
Distinct from `Invalid`. -/
def ConstantId.NotConstant : ConstantId := ⟨-2⟩

/-- A constant id denotes an actual constant when its index is a real
store index (non-negative), i.e. it is neither sentinel. -/
def ConstantId.is_constant (c : ConstantId) : Bool := 0 ≤ c.index

/-- A type id (`SemIR::TypeId`). -/
structure TypeId where
  index : Int
deriving DecidableEq, Repr

/-- The invalid type id sentinel. -/
def TypeId.Invalid : TypeId := ⟨-1⟩

namespace GenericInstIndex

/-- `GenericInstIndex::Region`: the two regions of a generic. -/
inductive Region where
  | Declaration
  | Definition
deriving DecidableEq, Repr

end GenericInstIndex

/-- `SemIR::Generic`: information for a generic entity.  Translated from
`toolchain/sem_ir/generic.h`.  The eval-block fields default to
`InstBlockId::Invalid`, as in the source member initializers. -/
structure Generic where
  decl_id : InstId
  bindings_id : InstBlockId
  self_instance_id : GenericInstanceId
  decl_block_id : InstBlockId := InstBlockId.Invalid
  definition_block_id : InstBlockId := InstBlockId.Invalid
deriving DecidableEq, Repr

/-- `Generic::GetEvalBlock`: returns the eval block for the specified region
of the generic. -/
def Generic.GetEvalBlock (g : Generic) (region : GenericInstIndex.Region) :
    InstBlockId :=
  if region = GenericInstIndex.Region.Declaration then g.decl_block_id
  else g.definition_block_id

instance : Inhabited Generic :=
  ⟨{ decl_id := InstId.Invalid, bindings_id := InstBlockId.Invalid,
     self_instance_id := GenericInstanceId.Invalid }⟩

/-- `SemIR::GenericStore`: a `ValueStore<GenericId>` of generics, modelled as
the list of stored values, addressed by index. -/
abbrev GenericStore := List Generic

/-- `ValueStore::Get` for generics: total lookup of a valid id. -/
def GenericStore.Get (s : GenericStore) (id : GenericId) : Generic :=
  s.getD id.index.toNat default

/-- `GenericStore::GetSelfInstance`: the self-instance for a generic, or an
invalid instance id for an invalid generic id. -/
def GenericStore.GetSelfInstance (s : GenericStore) (id : GenericId) :
    GenericInstanceId :=
  if id.is_valid then (s.Get id).self_instance_id else GenericInstanceId.Invalid

/-- `SemIR::GenericInstance`: an instance ("specific") of a generic entity.
The value-block fields default to `InstBlockId::Invalid`, as in the source
member initializers. -/
structure GenericInstance where
  generic_id : GenericId
  args_id : InstBlockId
  decl_block_id : InstBlockId := InstBlockId.Invalid
  definition_block_id : InstBlockId := InstBlockId.Invalid
deriving DecidableEq, Repr

instance : Inhabited GenericInstance :=
  ⟨{ generic_id := GenericId.Invalid, args_id := InstBlockId.Invalid }⟩

/-- `GenericInstance::GetValueBlock`: returns the value block for this region
of the specific. -/
def GenericInstance.GetValueBlock (gi : GenericInstance)
    (region : GenericInstIndex.Region) : InstBlockId :=
  if region = GenericInstIndex.Region.Declaration then gi.decl_block_id
  else gi.definition_block_id

/-- `SemIR::GenericInstanceStore`: storage for deduplicated instances of
generics.  The backing `ValueStore<GenericInstanceId>` is modelled as the
list of stored instances; the `lookup_table_` hash set keyed on
`(generic_id, args_id)` is modelled by index lookup over that list, which
has the same observable contract (reference/index equality on the canonical
argument block id, first inserted entry wins). -/
structure GenericInstanceStore where
  generic_instances : List GenericInstance
deriving DecidableEq, Repr

/-- Key lookup of the deduplication table: the index of the first instance
with the given generic id and canonical argument block id, if any.
Key equality is id (reference) equality, as in `KeyContext`. -/
def lookupIdx (g : GenericId) (a : InstBlockId) :
    List GenericInstance → Option Nat
  | [] => none
  | gi :: rest =>
    if gi.generic_id = g ∧ gi.args_id = a then some 0
    else (lookupIdx g a rest).map (· + 1)

/-- Modelled from the spec: the body of `GenericInstanceStore::GetOrAdd`
lives in `toolchain/sem_ir/generic.cpp`, which is not part of this surface;
only its declaration is.  Per the spec (§4.2): probe the lookup table with
the structural key `(generic_id, args)` under canonical-reference equality;
on hit return the existing id unchanged; on miss allocate a new
`GenericInstance` with unset value blocks, insert it into the backing store
and the lookup table, and return the new id. -/
def GenericInstanceStore.GetOrAdd (s : GenericInstanceStore)
    (generic_id : GenericId) (args_id : InstBlockId) :
    GenericInstanceStore × GenericInstanceId :=
  match lookupIdx generic_id args_id s.generic_instances with
  | some i => (s, ⟨(i : Int)⟩)
  | none =>
    (⟨s.generic_instances ++ [{ generic_id := generic_id, args_id := args_id }]⟩,
      ⟨(s.generic_instances.length : Int)⟩)

/-- `GenericInstanceStore::Get`: total lookup of a stored instance. -/
def GenericInstanceStore.Get (s : GenericInstanceStore)
    (id : GenericInstanceId) : GenericInstance :=
  s.generic_instances.getD id.index.toNat default

/-- `GenericInstanceStore::size`. -/
def GenericInstanceStore.size (s : GenericInstanceStore) : Nat :=
  s.generic_instances.length

/-- A sequence of get-or-add requests run against an instance store,
modelling an arbitrary amount of later instance creation. -/
def runRequests (s : GenericInstanceStore) :
    List (GenericId × InstBlockId) → GenericInstanceStore
  | [] => s
  | (g, a) :: rest => runRequests (s.GetOrAdd g a).1 rest

/-! ### Lookup-table lemmas -/

theorem lookupIdx_append_of_some {g : GenericId} {a : InstBlockId}
    {l : List GenericInstance} {i : Nat} (h : lookupIdx g a l = some i)
    (t : List GenericInstance) : lookupIdx g a (l ++ t) = some i := by
  induction l generalizing i with
  | nil => simp [lookupIdx] at h
  | cons gi rest ih =>
    simp only [lookupIdx, List.cons_append, List.append_eq] at h ⊢
    by_cases hm : gi.generic_id = g ∧ gi.args_id = a
    · rw [if_pos hm] at h ⊢; exact h
    · rw [if_neg hm] at h ⊢
      obtain ⟨j, hj, hji⟩ := Option.map_eq_some'.mp h
      rw [ih hj]
      simpa using hji

theorem lookupIdx_append_of_none {g : GenericId} {a : InstBlockId}
    {l : List GenericInstance} (h : lookupIdx g a l = none)
    {x : GenericInstance} (hx : x.generic_id = g ∧ x.args_id = a) :
    lookupIdx g a (l ++ [x]) = some l.length := by
  induction l with
  | nil => simp [lookupIdx, hx]
  | cons gi rest ih =>
    simp only [lookupIdx, List.cons_append, List.append_eq] at h ⊢
    by_cases hm : gi.generic_id = g ∧ gi.args_id = a
    · rw [if_pos hm] at h; exact absurd h (by simp)
    · rw [if_neg hm] at h ⊢
      rw [ih (Option.map_eq_none'.mp h)]
      simp

theorem lookupIdx_getElem {g : GenericId} {a : InstBlockId}
    {l : List GenericInstance} {i : Nat} (h : lookupIdx g a l = some i) :
    ∃ gi, l[i]? = some gi ∧ gi.generic_id = g ∧ gi.args_id = a := by
  induction l generalizing i with
  | nil => simp [lookupIdx] at h
  | cons x rest ih =>
    simp only [lookupIdx] at h
    by_cases hm : x.generic_id = g ∧ x.args_id = a
    · rw [if_pos hm] at h
      have h0 := Option.some.inj h
      subst h0
      exact ⟨x, by simp, hm⟩
    · rw [if_neg hm] at h
      obtain ⟨j, hj, hji⟩ := Option.map_eq_some'.mp h
      obtain ⟨gi, hget, hg⟩ := ih hj
      subst hji
      exact ⟨gi, by simpa using hget, hg⟩

/-- Equation lemma for `GetOrAdd` on a lookup hit. -/
theorem GetOrAdd_hit {s : GenericInstanceStore} {g : GenericId}
    {a : InstBlockId} {i : Nat}
    (h : lookupIdx g a s.generic_instances = some i) :
    s.GetOrAdd g a = (s, ⟨(i : Int)⟩) := by
  simp [GenericInstanceStore.GetOrAdd, h]

/-- Equation lemma for `GetOrAdd` on a lookup miss. -/
theorem GetOrAdd_miss {s : GenericInstanceStore} {g : GenericId}
    {a : InstBlockId}
    (h : lookupIdx g a s.generic_instances = none) :
    s.GetOrAdd g a =
      (⟨s.generic_instances ++ [{ generic_id := g, args_id := a }]⟩,
        ⟨(s.generic_instances.length : Int)⟩) := by
  simp [GenericInstanceStore.GetOrAdd, h]

/-- Every call to `GetOrAdd` leaves the looked-up key present, at the index
named by the returned id. -/
theorem GetOrAdd_lookup (s : GenericInstanceStore) (g : GenericId)
    (a : InstBlockId) :
    ∃ i : Nat, lookupIdx g a (s.GetOrAdd g a).1.generic_instances = some i ∧
      (s.GetOrAdd g a).2 = ⟨(i : Int)⟩ := by
  cases hl : lookupIdx g a s.generic_instances with
  | some i =>
    exact ⟨i, by rw [GetOrAdd_hit hl]; exact ⟨hl, rfl⟩⟩
  | none =>
    refine ⟨s.generic_instances.length, ?_, ?_⟩
    · rw [GetOrAdd_miss hl]
      exact lookupIdx_append_of_none hl ⟨rfl, rfl⟩
    · rw [GetOrAdd_miss hl]

/-- `GetOrAdd` only ever appends to the backing store. -/
theorem GetOrAdd_extends (s : GenericInstanceStore) (g : GenericId)
    (a : InstBlockId) :
    ∃ t, (s.GetOrAdd g a).1.generic_instances = s.generic_instances ++ t := by
  cases hl : lookupIdx g a s.generic_instances with
  | some i => exact ⟨[], by rw [GetOrAdd_hit hl]; simp⟩
  | none =>
    exact ⟨[{ generic_id := g, args_id := a }], by rw [GetOrAdd_miss hl]⟩

/-- A sequence of requests only ever appends to the backing store. -/
theorem runRequests_extends (s : GenericInstanceStore)
    (reqs : List (GenericId × InstBlockId)) :
    ∃ t, (runRequests s reqs).generic_instances = s.generic_instances ++ t := by
  induction reqs generalizing s with
  | nil => exact ⟨[], by simp [runRequests]⟩
  | cons r rest ih =>
    obtain ⟨rg, ra⟩ := r
    obtain ⟨t₁, h₁⟩ := GetOrAdd_extends s rg ra
    obtain ⟨t₂, h₂⟩ := ih (s.GetOrAdd rg ra).1
    refine ⟨t₁ ++ t₂, ?_⟩
    simp only [runRequests]
    rw [h₂, h₁, List.append_assoc]

/-- Claim C1: repeated calls of `GetOrAdd` with the same generic and the same
canonical argument block return the same instance id, no matter how many
other instances are created in between. -/
theorem getOrAdd_idempotent (s : GenericInstanceStore) (g : GenericId)
    (a : InstBlockId) (reqs : List (GenericId × InstBlockId)) :
    ((runRequests (s.GetOrAdd g a).1 reqs).GetOrAdd g a).2 = (s.GetOrAdd g a).2 := by
  obtain ⟨i, hlook, hid⟩ := GetOrAdd_lookup s g a
  obtain ⟨t, ht⟩ := runRequests_extends (s.GetOrAdd g a).1 reqs
  have hl₂ : lookupIdx g a (runRequests (s.GetOrAdd g a).1 reqs).generic_instances
      = some i := by
    rw [ht]
    exact lookupIdx_append_of_some hlook t
  rw [GetOrAdd_hit hl₂, hid]

/-- Claim C2: `GetOrAdd` calls with the same generic but different canonical
argument blocks return distinct instance ids, even across an arbitrary run
of other requests in between. -/
theorem getOrAdd_distinct (s : GenericInstanceStore) (g : GenericId)
    (a₁ a₂ : InstBlockId) (reqs : List (GenericId × InstBlockId))
    (hne : a₁ ≠ a₂) :
    ((runRequests (s.GetOrAdd g a₁).1 reqs).GetOrAdd g a₂).2 ≠ (s.GetOrAdd g a₁).2 := by
  obtain ⟨i₁, hlook₁, hid₁⟩ := GetOrAdd_lookup s g a₁
  obtain ⟨gi₁, hget₁, hgen₁, harg₁⟩ := lookupIdx_getElem hlook₁
  obtain ⟨t, ht⟩ := runRequests_extends (s.GetOrAdd g a₁).1 reqs
  obtain ⟨i₂, hlook₂, hid₂⟩ :=
    GetOrAdd_lookup (runRequests (s.GetOrAdd g a₁).1 reqs) g a₂
  obtain ⟨gi₂, hget₂, hgen₂, harg₂⟩ := lookupIdx_getElem hlook₂
  obtain ⟨t₂, ht₂⟩ :=
    GetOrAdd_extends (runRequests (s.GetOrAdd g a₁).1 reqs) g a₂
  rw [hid₁, hid₂]
  intro hEq
  have hii : i₂ = i₁ := by
    have := congrArg GenericInstanceId.index hEq
    simpa using this
  subst hii
  have hlt : i₂ < (s.GetOrAdd g a₁).1.generic_instances.length :=
    (List.getElem?_eq_some.mp hget₁).1
  have hget₁' :
      ((runRequests (s.GetOrAdd g a₁).1 reqs).GetOrAdd g a₂).1.generic_instances[i₂]?
        = some gi₁ := by
    rw [ht₂, ht, List.append_assoc, List.getElem?_append_left hlt]
    exact hget₁
  have hgg : gi₁ = gi₂ := Option.some.inj (hget₁'.symm.trans hget₂)
  apply hne
  rw [← harg₁, ← harg₂, hgg]

/-- Witness for C2 at a concrete input: from an empty store, adding args
block 0 then args block 1 for generic 0 yields different ids. -/
theorem getOrAdd_distinct_witness :
    (⟨0⟩ : InstBlockId) ≠ ⟨1⟩ ∧
    ((runRequests ((GenericInstanceStore.mk []).GetOrAdd ⟨0⟩ ⟨0⟩).1 []).GetOrAdd
        ⟨0⟩ ⟨1⟩).2 ≠ ((GenericInstanceStore.mk []).GetOrAdd ⟨0⟩ ⟨0⟩).2 :=
  ⟨by decide, getOrAdd_distinct ⟨[]⟩ ⟨0⟩ ⟨0⟩ ⟨1⟩ [] (by decide)⟩

/-! ### Entity creation and the self-instance -/

/-- Modelled from the spec: the toolchain code that creates a `Generic`
(`create(declaration_ref, bindings)` in §4.1, implemented in the check
layer, not part of this surface) allocates a new `Generic` with unset eval
blocks together with its self-instance — an instance whose argument list is
the bindings themselves, each binding mapped to itself — registered in the
Instance Store via `GetOrAdd`. -/
def create (gs : GenericStore) (istore : GenericInstanceStore)
    (decl_id : InstId) (bindings_id : InstBlockId) :
    GenericStore × GenericInstanceStore × GenericId :=
  let generic_id : GenericId := ⟨(gs.length : Int)⟩
  let r := istore.GetOrAdd generic_id bindings_id
  (gs ++ [{ decl_id := decl_id, bindings_id := bindings_id,
            self_instance_id := r.2 }],
    r.1, generic_id)

theorem lookupIdx_none_of_fresh {g : GenericId} {a : InstBlockId}
    {l : List GenericInstance} (h : ∀ gi ∈ l, gi.generic_id ≠ g) :
    lookupIdx g a l = none := by
  induction l with
  | nil => rfl
  | cons x rest ih =>
    simp only [lookupIdx]
    rw [if_neg fun hm => h x (List.mem_cons_self x rest) hm.1,
      ih fun gi hm => h gi (List.mem_cons_of_mem x hm)]
    rfl

theorem getD_append_length {α : Type} [Inhabited α] (l : List α) (x : α) :
    (l ++ [x]).getD l.length default = x := by
  induction l with
  | nil => rfl
  | cons y rest ih => simp [ih]

/-- Claim C3: for a generic created with bindings `b`, the self-instance
returned by `GetSelfInstance` has argument list exactly `b` (each binding
mapped to itself), and `GetOrAdd` with the generic and `b` returns that
same self-instance id without allocating a new instance.  The
well-formedness hypothesis says every pre-existing instance refers to an
already-existing generic. -/
theorem create_self_instance (gs : GenericStore) (istore : GenericInstanceStore)
    (d : InstId) (b : InstBlockId)
    (hwf : ∀ gi ∈ istore.generic_instances,
      gi.generic_id.index < (gs.length : Int)) :
    ((create gs istore d b).2.1.Get
        (GenericStore.GetSelfInstance (create gs istore d b).1
          (create gs istore d b).2.2)).args_id = b ∧
    (create gs istore d b).2.1.GetOrAdd (create gs istore d b).2.2 b =
      ((create gs istore d b).2.1,
        GenericStore.GetSelfInstance (create gs istore d b).1
          (create gs istore d b).2.2) := by
  have hfresh : ∀ gi ∈ istore.generic_instances,
      gi.generic_id ≠ (⟨(gs.length : Int)⟩ : GenericId) := by
    intro gi hm hEq
    have := hwf gi hm
    rw [hEq] at this
    exact absurd this (by simp)
  have hnone : lookupIdx ⟨(gs.length : Int)⟩ b istore.generic_instances = none :=
    lookupIdx_none_of_fresh hfresh
  have hmiss := GetOrAdd_miss hnone
  have hvalid : GenericId.is_valid ⟨(gs.length : Int)⟩ = true := by
    simp [GenericId.is_valid]
  have hselfid :
      GenericStore.GetSelfInstance (create gs istore d b).1
        (create gs istore d b).2.2 =
      ⟨(istore.generic_instances.length : Int)⟩ := by
    simp only [create, GenericStore.GetSelfInstance, hvalid, if_true,
      GenericStore.Get, hmiss]
    rw [Int.toNat_ofNat, getD_append_length]
  refine ⟨?_, ?_⟩
  · rw [hselfid]
    simp only [create, hmiss, GenericInstanceStore.Get]
    rw [Int.toNat_ofNat, getD_append_length]
  · rw [hselfid]
    simp only [create, hmiss]
    exact GetOrAdd_hit (lookupIdx_append_of_none hnone ⟨rfl, rfl⟩)

/-- Witness for C3 at a concrete input: creating a generic with bindings
block 5 in empty stores. -/
theorem create_self_instance_witness :
    (∀ gi ∈ (GenericInstanceStore.mk []).generic_instances,
      gi.generic_id.index < (([] : GenericStore).length : Int)) ∧
    (((create [] ⟨[]⟩ ⟨0⟩ ⟨5⟩).2.1.Get
        (GenericStore.GetSelfInstance (create [] ⟨[]⟩ ⟨0⟩ ⟨5⟩).1
          (create [] ⟨[]⟩ ⟨0⟩ ⟨5⟩).2.2)).args_id = ⟨5⟩ ∧
    (create [] ⟨[]⟩ ⟨0⟩ ⟨5⟩).2.1.GetOrAdd (create [] ⟨[]⟩ ⟨0⟩ ⟨5⟩).2.2 ⟨5⟩ =
      ((create [] ⟨[]⟩ ⟨0⟩ ⟨5⟩).2.1,
        GenericStore.GetSelfInstance (create [] ⟨[]⟩ ⟨0⟩ ⟨5⟩).1
          (create [] ⟨[]⟩ ⟨0⟩ ⟨5⟩).2.2)) :=
  ⟨by simp, create_self_instance [] ⟨[]⟩ ⟨0⟩ ⟨5⟩ (by simp)⟩

/-! ### Frame conditions of GetOrAdd -/

/-- Claim C8: on a lookup hit, `GetOrAdd` leaves the store entirely
unchanged and returns the pre-existing id; on a miss it appends exactly one
new instance carrying the requested generic and argument block, with both
value blocks unset. -/
theorem getOrAdd_frame (s : GenericInstanceStore) (g : GenericId)
    (a : InstBlockId) :
    (∀ i : Nat, lookupIdx g a s.generic_instances = some i →
      s.GetOrAdd g a = (s, ⟨(i : Int)⟩)) ∧
    (lookupIdx g a s.generic_instances = none →
      (s.GetOrAdd g a).1.generic_instances =
        s.generic_instances ++
          [{ generic_id := g, args_id := a,
             decl_block_id := InstBlockId.Invalid,
             definition_block_id := InstBlockId.Invalid }] ∧
      (s.GetOrAdd g a).2 = ⟨(s.generic_instances.length : Int)⟩ ∧
      (s.GetOrAdd g a).1.size = s.size + 1) := by
  refine ⟨fun i hi => GetOrAdd_hit hi, fun hn => ?_⟩
  rw [GetOrAdd_miss hn]
  refine ⟨rfl, rfl, ?_⟩
  simp [GenericInstanceStore.size]

/-- Witness for C8 at a concrete input: a miss on the empty store appends
one instance with unset value blocks. -/
theorem getOrAdd_frame_witness :
    lookupIdx ⟨0⟩ ⟨7⟩ (GenericInstanceStore.mk []).generic_instances = none ∧
    ((GenericInstanceStore.mk []).GetOrAdd ⟨0⟩ ⟨7⟩).1.generic_instances =
      (GenericInstanceStore.mk []).generic_instances ++
        [{ generic_id := ⟨0⟩, args_id := ⟨7⟩,
           decl_block_id := InstBlockId.Invalid,
           definition_block_id := InstBlockId.Invalid }] ∧
    ((GenericInstanceStore.mk []).GetOrAdd ⟨0⟩ ⟨7⟩).2 =
      ⟨((GenericInstanceStore.mk []).generic_instances.length : Int)⟩ ∧
    ((GenericInstanceStore.mk []).GetOrAdd ⟨0⟩ ⟨7⟩).1.size =
      (GenericInstanceStore.mk []).size + 1 :=
  ⟨by decide, (getOrAdd_frame ⟨[]⟩ ⟨0⟩ ⟨7⟩).2 (by decide)⟩

/-! ### GetSelfInstance -/

/-- Claim C9: `GetSelfInstance` returns the stored `self_instance_id` for a
valid generic id, and the explicit invalid instance id for an invalid one,
as an ordinary return value. -/
theorem getSelfInstance_spec (s : GenericStore) (id : GenericId) :
    (id.is_valid = true →
      s.GetSelfInstance id = (s.Get id).self_instance_id) ∧
    (id.is_valid = false →
      s.GetSelfInstance id = GenericInstanceId.Invalid) := by
  constructor <;> intro h <;> simp [GenericStore.GetSelfInstance, h]

/-- Witness for C9 at a concrete input: the invalid generic id maps to the
invalid instance id. -/
theorem getSelfInstance_spec_witness :
    GenericId.is_valid ⟨-1⟩ = false ∧
    GenericStore.GetSelfInstance [] ⟨-1⟩ = GenericInstanceId.Invalid :=
  ⟨by decide, (getSelfInstance_spec [] ⟨-1⟩).2 (by decide)⟩

/-! ### Region accessors are total and symmetric -/

/-- Claim C10: `GetEvalBlock` and `GetValueBlock` are total pure functions:
they select the declaration field exactly when the region is `Declaration`
and the definition field otherwise, symmetrically, and on an
unsealed/unresolved region they return the `Invalid` block id rather than
failing. -/
theorem getEvalBlock_getValueBlock_total (g : Generic) (gi : GenericInstance) :
    g.GetEvalBlock GenericInstIndex.Region.Declaration = g.decl_block_id ∧
    g.GetEvalBlock GenericInstIndex.Region.Definition = g.definition_block_id ∧
    gi.GetValueBlock GenericInstIndex.Region.Declaration = gi.decl_block_id ∧
    gi.GetValueBlock GenericInstIndex.Region.Definition = gi.definition_block_id ∧
    (g.decl_block_id = InstBlockId.Invalid →
      g.GetEvalBlock GenericInstIndex.Region.Declaration = InstBlockId.Invalid) ∧
    (g.definition_block_id = InstBlockId.Invalid →
      g.GetEvalBlock GenericInstIndex.Region.Definition = InstBlockId.Invalid) ∧
    (gi.decl_block_id = InstBlockId.Invalid →
      gi.GetValueBlock GenericInstIndex.Region.Declaration = InstBlockId.Invalid) ∧
    (gi.definition_block_id = InstBlockId.Invalid →
      gi.GetValueBlock GenericInstIndex.Region.Definition = InstBlockId.Invalid) := by
  refine ⟨by simp [Generic.GetEvalBlock], by simp [Generic.GetEvalBlock],
    by simp [GenericInstance.GetValueBlock], by simp [GenericInstance.GetValueBlock],
    ?_, ?_, ?_, ?_⟩ <;>
    intro h <;> simp [Generic.GetEvalBlock, GenericInstance.GetValueBlock, h]

/-- Witness for C10 at a concrete input: a freshly created generic has an
unset declaration eval block, and `GetEvalBlock` returns `Invalid` there. -/
theorem getEvalBlock_getValueBlock_total_witness :
    ({ decl_id := ⟨0⟩, bindings_id := ⟨0⟩, self_instance_id := ⟨0⟩ } :
        Generic).decl_block_id = InstBlockId.Invalid ∧
    ({ decl_id := ⟨0⟩, bindings_id := ⟨0⟩, self_instance_id := ⟨0⟩ } :
        Generic).GetEvalBlock GenericInstIndex.Region.Declaration =
      InstBlockId.Invalid :=
  ⟨by decide,
    (getEvalBlock_getValueBlock_total
      { decl_id := ⟨0⟩, bindings_id := ⟨0⟩, self_instance_id := ⟨0⟩ }
      default).2.2.2.2.1 (by decide)⟩

/-! ### Substitution queries and the evaluation driver -/

/-- `SemIR::GenericInstIndex`: the position of a generic-scope construct
inside its generic — the region it belongs to and its zero-based index
within that region's eval block. -/
structure GenericInstIndex where
  region : GenericInstIndex.Region
  index : Nat
deriving DecidableEq, Repr

/-- An instruction (`SemIR::Inst`), abstracted to what phase classification
needs: the references it takes as operands. -/
structure Inst where
  operands : List InstId
deriving DecidableEq, Repr

/-- Modelled from the spec: the slice of `SemIR::File` (and the checking
`Context` wrapping it) that the substitution queries and the evaluation
driver consult.  The real `File` lives in `toolchain/sem_ir/file.h`, which
is not part of this surface; here it is the collection of externally
provided total maps the spec's §6 describes: instruction blocks, constant
values of instructions, the location (region and eval-block position) of a
region-dependent constant, the type/constant correspondence, and the
constant-folding oracle used by phase classification. -/
structure File where
  generics : GenericStore
  generic_instances : GenericInstanceStore
  inst_blocks : InstBlockId → List InstId
  insts : InstId → Inst
  constant_values : InstId → ConstantId
  constant_loc : ConstantId → Option GenericInstIndex
  type_constant : TypeId → ConstantId
  constant_type : ConstantId → TypeId
  fold : InstId → Inst → ConstantId

/-- Modelled from the spec: `GetConstantInInstance` (body in
`toolchain/sem_ir/generic.cpp`, not in this surface): a read-only
projection that performs no substitution and no evaluation.  If the
constant is not region-dependent it is its own substituted value.
Otherwise locate the instance's value block for the construct's region; if
that block is unset, or the slot is missing, return the `Invalid`
("not yet known") sentinel; otherwise return the constant value stored in
the slot at the construct's eval-block position. -/
def GetConstantInInstance (f : File) (instance_id : GenericInstanceId)
    (const_id : ConstantId) : ConstantId :=
  match f.constant_loc const_id with
  | none => const_id
  | some loc =>
    let vb := (f.generic_instances.Get instance_id).GetValueBlock loc.region
    if vb = InstBlockId.Invalid then ConstantId.Invalid
    else
      match (f.inst_blocks vb)[loc.index]? with
      | none => ConstantId.Invalid
      | some slot_inst => f.constant_values slot_inst

/-- Modelled from the spec: `GetConstantValueInInstance` — the substituted
constant value of an instruction within an instance: the substituted value
of that instruction's constant value. -/
def GetConstantValueInInstance (f : File) (instance_id : GenericInstanceId)
    (inst_id : InstId) : ConstantId :=
  GetConstantInInstance f instance_id (f.constant_values inst_id)

/-- Modelled from the spec: `GetTypeInInstance` — the substituted value of
a type within an instance, obtained through the type's constant; `Invalid`
propagates as the type-level unknown sentinel. -/
def GetTypeInInstance (f : File) (instance_id : GenericInstanceId)
    (type_id : TypeId) : TypeId :=
  let c := GetConstantInInstance f instance_id (f.type_constant type_id)
  if c = ConstantId.Invalid then TypeId.Invalid else f.constant_type c

/-- Claim C4: on an instance whose value block for the relevant region is
still unset, each of the three substitution queries returns the explicit
unknown/invalid sentinel, which is distinct from the `NotConstant`
("known to be non-constant") value.  The queries are pure projections of
`File` — they take no mutable state and can trigger no evaluation by
construction. -/
theorem queries_unknown_before_resolved (f : File) (iid : GenericInstanceId)
    (c : ConstantId) (inst_id : InstId) (ty : TypeId)
    (locc loci loct : GenericInstIndex)
    (hc : f.constant_loc c = some locc)
    (hi : f.constant_loc (f.constant_values inst_id) = some loci)
    (ht : f.constant_loc (f.type_constant ty) = some loct)
    (hvc : (f.generic_instances.Get iid).GetValueBlock locc.region =
      InstBlockId.Invalid)
    (hvi : (f.generic_instances.Get iid).GetValueBlock loci.region =
      InstBlockId.Invalid)
    (hvt : (f.generic_instances.Get iid).GetValueBlock loct.region =
      InstBlockId.Invalid) :
    GetConstantInInstance f iid c = ConstantId.Invalid ∧
    GetConstantValueInInstance f iid inst_id = ConstantId.Invalid ∧
    GetTypeInInstance f iid ty = TypeId.Invalid ∧
    ConstantId.Invalid ≠ ConstantId.NotConstant := by
  refine ⟨?_, ?_, ?_, by decide⟩
  · simp [GetConstantInInstance, hc, hvc]
  · simp [GetConstantValueInInstance, GetConstantInInstance, hi, hvi]
  · simp [GetTypeInInstance, GetConstantInInstance, ht, hvt]

/-- A concrete `File` with a single unresolved instance, for witnesses:
every constant is located in the definition region at position 0, and the
single instance's value blocks are unset. -/
def sampleFile : File where
  generics := []
  generic_instances := ⟨[{ generic_id := ⟨0⟩, args_id := ⟨0⟩ }]⟩
  inst_blocks := fun _ => []
  insts := fun _ => ⟨[]⟩
  constant_values := fun i =>
    if i.index = 9 then ConstantId.NotConstant else ⟨3⟩
  constant_loc := fun _ => some ⟨GenericInstIndex.Region.Definition, 0⟩
  type_constant := fun _ => ⟨3⟩
  constant_type := fun _ => ⟨0⟩
  fold := fun _ _ => ⟨0⟩

/-- Witness for C4 at a concrete input: all three queries on the
unresolved instance of `sampleFile` return the unknown sentinel. -/
theorem queries_unknown_before_resolved_witness :
    sampleFile.constant_loc ⟨2⟩ =
      some ⟨GenericInstIndex.Region.Definition, 0⟩ ∧
    sampleFile.constant_loc (sampleFile.constant_values ⟨0⟩) =
      some ⟨GenericInstIndex.Region.Definition, 0⟩ ∧
    sampleFile.constant_loc (sampleFile.type_constant ⟨0⟩) =
      some ⟨GenericInstIndex.Region.Definition, 0⟩ ∧
    (sampleFile.generic_instances.Get ⟨0⟩).GetValueBlock
      GenericInstIndex.Region.Definition = InstBlockId.Invalid ∧
    (GetConstantInInstance sampleFile ⟨0⟩ ⟨2⟩ = ConstantId.Invalid ∧
      GetConstantValueInInstance sampleFile ⟨0⟩ ⟨0⟩ = ConstantId.Invalid ∧
      GetTypeInInstance sampleFile ⟨0⟩ ⟨0⟩ = TypeId.Invalid ∧
      ConstantId.Invalid ≠ ConstantId.NotConstant) :=
  ⟨rfl, rfl, rfl, rfl,
    queries_unknown_before_resolved sampleFile ⟨0⟩ ⟨2⟩ ⟨0⟩ ⟨0⟩
      ⟨GenericInstIndex.Region.Definition, 0⟩
      ⟨GenericInstIndex.Region.Definition, 0⟩
      ⟨GenericInstIndex.Region.Definition, 0⟩ rfl rfl rfl rfl rfl rfl⟩

/-- Modelled from the spec: an instruction has constant phase when all the
references it uses have known constant values; otherwise it has runtime
phase.  The folding of a constant-phase instruction is delegated to the
file's constant-folding oracle, which this subsystem treats as an external
collaborator (spec §1, §4.4). -/
def hasConstantPhase (f : File) (inst : Inst) : Bool :=
  inst.operands.all fun op => (f.constant_values op).is_constant

/-- Modelled from the spec: `TryEvalInst` (declared in
`toolchain/check/eval.h`; body in `toolchain/check/eval.cpp`, not in this
surface): determines the phase of `inst` and returns its constant value if
it has constant phase; if it has runtime phase, returns
`ConstantId::NotConstant`.  It is a total function: both outcomes are
ordinary return values. -/
def TryEvalInst (f : File) (inst_id : InstId) (inst : Inst) : ConstantId :=
  if hasConstantPhase f inst then f.fold inst_id inst
  else ConstantId.NotConstant

/-- Claim C5: `TryEvalInst` returns the instruction's folded constant value
exactly when the instruction has constant phase, and the distinguished
`NotConstant` marker — an ordinary return value — when it has runtime
phase. -/
theorem tryEvalInst_phase (f : File) (inst_id : InstId) (inst : Inst) :
    (hasConstantPhase f inst = true →
      TryEvalInst f inst_id inst = f.fold inst_id inst) ∧
    (hasConstantPhase f inst = false →
      TryEvalInst f inst_id inst = ConstantId.NotConstant) := by
  constructor <;> intro h <;> simp [TryEvalInst, h]

/-- Witness for C5 at a concrete input: in `sampleFile`, an instruction
reading instruction 0 has constant phase, and one reading instruction 9
(whose constant value is `NotConstant`) has runtime phase and evaluates to
`NotConstant`. -/
theorem tryEvalInst_phase_witness :
    hasConstantPhase sampleFile ⟨[⟨9⟩]⟩ = false ∧
    TryEvalInst sampleFile ⟨1⟩ ⟨[⟨9⟩]⟩ = ConstantId.NotConstant :=
  ⟨by decide, (tryEvalInst_phase sampleFile ⟨1⟩ ⟨[⟨9⟩]⟩).2 (by decide)⟩

/-- Modelled from the spec: substitution of one reference — a generic
binding is replaced by the instance's positionally corresponding argument;
any other reference is left unchanged. -/
def substRef (bindings args : List InstId) (op : InstId) : InstId :=
  match List.findIdx? (· == op) bindings with
  | some i => args.getD i op
  | none => op

/-- Modelled from the spec: substitution applied to an instruction, i.e.
to each of its operands. -/
def substInst (bindings args : List InstId) (inst : Inst) : Inst :=
  ⟨inst.operands.map (substRef bindings args)⟩

/-- Modelled from the spec: `TryEvalBlockForSpecific` (declared in
`toolchain/check/eval.h`; body in `toolchain/check/eval.cpp`, not in this
surface): re-runs the generic's eval block for `region` under the
substitution mapping each binding to the specific's positionally
corresponding argument, classifying each instruction via `TryEvalInst`,
and produces the ordered value block aligned with the eval block.  The
resulting block is returned as the list of its slots. -/
def TryEvalBlockForSpecific (f : File) (specific_id : GenericInstanceId)
    (region : GenericInstIndex.Region) : List ConstantId :=
  let gi := f.generic_instances.Get specific_id
  let g := f.generics.Get gi.generic_id
  let bindings := f.inst_blocks g.bindings_id
  let args := f.inst_blocks gi.args_id
  (f.inst_blocks (g.GetEvalBlock region)).map fun inst_id =>
    TryEvalInst f inst_id (substInst bindings args (f.insts inst_id))

/-- Claim C6: for an instance whose generic's eval block for the region is
sealed, the produced value block has the same length as that eval block,
and the slot at every position is the classification of the substituted
eval-block instruction at that same position. -/
theorem tryEvalBlockForSpecific_aligned (f : File) (sid : GenericInstanceId)
    (region : GenericInstIndex.Region)
    (hsealed : (f.generics.Get (f.generic_instances.Get sid).generic_id).GetEvalBlock
      region ≠ InstBlockId.Invalid) :
    (TryEvalBlockForSpecific f sid region).length =
      (f.inst_blocks
        ((f.generics.Get (f.generic_instances.Get sid).generic_id).GetEvalBlock
          region)).length ∧
    ∀ i : Nat,
      (TryEvalBlockForSpecific f sid region)[i]? =
        ((f.inst_blocks
          ((f.generics.Get (f.generic_instances.Get sid).generic_id).GetEvalBlock
            region))[i]?).map fun inst_id =>
          TryEvalInst f inst_id
            (substInst
              (f.inst_blocks
                (f.generics.Get (f.generic_instances.Get sid).generic_id).bindings_id)
              (f.inst_blocks (f.generic_instances.Get sid).args_id)
              (f.insts inst_id)) := by
  refine ⟨?_, ?_⟩
  · simp [TryEvalBlockForSpecific]
  · intro i
    simp [TryEvalBlockForSpecific]

/-- A concrete `File` with one generic whose declaration eval block is
sealed and one instance of it, for the C6 witness.  Bindings block 1 holds
binding instruction 100; args block 2 holds argument instruction 200; the
sealed declaration eval block 3 holds instruction 300. -/
def evalFile : File where
  generics :=
    [{ decl_id := ⟨0⟩, bindings_id := ⟨1⟩, self_instance_id := ⟨0⟩,
       decl_block_id := ⟨3⟩ }]
  generic_instances := ⟨[{ generic_id := ⟨0⟩, args_id := ⟨2⟩ }]⟩
  inst_blocks := fun b =>
    if b = ⟨1⟩ then [⟨100⟩] else if b = ⟨2⟩ then [⟨200⟩]
    else if b = ⟨3⟩ then [⟨300⟩] else []
  insts := fun i => if i = ⟨300⟩ then ⟨[⟨100⟩]⟩ else ⟨[]⟩
  constant_values := fun _ => ⟨3⟩
  constant_loc := fun _ => none
  type_constant := fun _ => ⟨3⟩
  constant_type := fun _ => ⟨0⟩
  fold := fun _ _ => ⟨7⟩

/-- Witness for C6 at a concrete input: the value block produced for the
sealed declaration region of `evalFile`'s single instance has the same
length as the eval block. -/
theorem tryEvalBlockForSpecific_aligned_witness :
    (evalFile.generics.Get
        (evalFile.generic_instances.Get ⟨0⟩).generic_id).GetEvalBlock
      GenericInstIndex.Region.Declaration ≠ InstBlockId.Invalid ∧
    (TryEvalBlockForSpecific evalFile ⟨0⟩
        GenericInstIndex.Region.Declaration).length =
      (evalFile.inst_blocks
        ((evalFile.generics.Get
            (evalFile.generic_instances.Get ⟨0⟩).generic_id).GetEvalBlock
          GenericInstIndex.Region.Declaration)).length :=
  ⟨by decide,
    (tryEvalBlockForSpecific_aligned evalFile ⟨0⟩
      GenericInstIndex.Region.Declaration (by decide)).1⟩

/-! ### Mutation discipline -/

/-- The mutable state of the subsystem: the entity store and the instance
store. -/
structure SemState where
  generics : GenericStore
  instances : GenericInstanceStore
deriving DecidableEq, Repr

/-- Modelled from the spec: the operations the checking pipeline performs
against the stores (§4.1, §4.2, §4.4, §6): creating a generic together
with its self-instance, requesting an instance via get-or-add, sealing a
region's eval block (`set_eval_block`, whose writer lives in the check
layer, not in this surface), and resolving a region's value block for an
instance (the region-evaluation driver, likewise external).  The two set
operations fail (a contract violation, modelled as `none`) when the field
is already set, and write an actual (non-`Invalid`) block. -/
inductive Op where
  | makeGeneric (decl_id : InstId) (bindings_id : InstBlockId)
  | opGetOrAdd (g : GenericId) (a : InstBlockId)
  | setEvalBlock (g : GenericId) (region : GenericInstIndex.Region)
      (b : InstBlockId)
  | setValueBlock (iid : GenericInstanceId) (region : GenericInstIndex.Region)
      (b : InstBlockId)
deriving DecidableEq, Repr

/-- Write one region's eval block of a generic. -/
def setGenericBlock (g : Generic) (region : GenericInstIndex.Region)
    (b : InstBlockId) : Generic :=
  if region = GenericInstIndex.Region.Declaration then
    { g with decl_block_id := b }
  else { g with definition_block_id := b }

/-- Write one region's value block of an instance. -/
def setInstanceBlock (gi : GenericInstance) (region : GenericInstIndex.Region)
    (b : InstBlockId) : GenericInstance :=
  if region = GenericInstIndex.Region.Declaration then
    { gi with decl_block_id := b }
  else { gi with definition_block_id := b }

/-- One step of the pipeline against the stores; `none` is a contract
violation (double write, missing entity, writing an invalid block). -/
def applyOp (s : SemState) : Op → Option SemState
  | Op.makeGeneric d b =>
    let r := create s.generics s.instances d b
    some ⟨r.1, r.2.1⟩
  | Op.opGetOrAdd g a => some ⟨s.generics, (s.instances.GetOrAdd g a).1⟩
  | Op.setEvalBlock gid region b =>
    match s.generics[gid.index.toNat]? with
    | none => none
    | some g =>
      if g.GetEvalBlock region = InstBlockId.Invalid ∧ b ≠ InstBlockId.Invalid
      then some ⟨s.generics.set gid.index.toNat (setGenericBlock g region b),
        s.instances⟩
      else none
  | Op.setValueBlock iid region b =>
    match s.instances.generic_instances[iid.index.toNat]? with
    | none => none
    | some gi =>
      if gi.GetValueBlock region = InstBlockId.Invalid ∧ b ≠ InstBlockId.Invalid
      then some ⟨s.generics,
        ⟨s.instances.generic_instances.set iid.index.toNat
          (setInstanceBlock gi region b)⟩⟩
      else none

/-- A run of pipeline steps. -/
def runOps (s : SemState) : List Op → Option SemState
  | [] => some s
  | op :: rest =>
    match applyOp s op with
    | none => none
    | some s₁ => runOps s₁ rest

/-- What never changes about one stored `Generic`: the immutable fields
are equal, and each eval-block field, once set (non-`Invalid`), keeps its
value. -/
def GenericPreserved (g g' : Generic) : Prop :=
  g'.decl_id = g.decl_id ∧ g'.bindings_id = g.bindings_id ∧
  g'.self_instance_id = g.self_instance_id ∧
  (g.decl_block_id ≠ InstBlockId.Invalid →
    g'.decl_block_id = g.decl_block_id) ∧
  (g.definition_block_id ≠ InstBlockId.Invalid →
    g'.definition_block_id = g.definition_block_id)

/-- What never changes about one stored `GenericInstance`. -/
def InstancePreserved (x x' : GenericInstance) : Prop :=
  x'.generic_id = x.generic_id ∧ x'.args_id = x.args_id ∧
  (x.decl_block_id ≠ InstBlockId.Invalid →
    x'.decl_block_id = x.decl_block_id) ∧
  (x.definition_block_id ≠ InstBlockId.Invalid →
    x'.definition_block_id = x.definition_block_id)

/-- Every entry present in the earlier state is still present at the same
index, with immutable fields unchanged and set block fields unchanged. -/
def StatePreserved (s s' : SemState) : Prop :=
  (∀ i : Nat, ∀ g, s.generics[i]? = some g →
    ∃ g', s'.generics[i]? = some g' ∧ GenericPreserved g g') ∧
  (∀ i : Nat, ∀ x, s.instances.generic_instances[i]? = some x →
    ∃ x', s'.instances.generic_instances[i]? = some x' ∧ InstancePreserved x x')

theorem genericPreserved_refl (g : Generic) : GenericPreserved g g :=
  ⟨Eq.refl _, Eq.refl _, Eq.refl _, fun _ => Eq.refl _, fun _ => Eq.refl _⟩

theorem instancePreserved_refl (x : GenericInstance) : InstancePreserved x x :=
  ⟨Eq.refl _, Eq.refl _, fun _ => Eq.refl _, fun _ => Eq.refl _⟩

theorem genericPreserved_trans {g g' g'' : Generic}
    (h₁ : GenericPreserved g g') (h₂ : GenericPreserved g' g'') :
    GenericPreserved g g'' := by
  obtain ⟨a₁, b₁, c₁, d₁, e₁⟩ := h₁
  obtain ⟨a₂, b₂, c₂, d₂, e₂⟩ := h₂
  refine ⟨a₂.trans a₁, b₂.trans b₁, c₂.trans c₁, ?_, ?_⟩
  · intro h
    rw [d₂ (by rw [d₁ h]; exact h), d₁ h]
  · intro h
    rw [e₂ (by rw [e₁ h]; exact h), e₁ h]

theorem instancePreserved_trans {x x' x'' : GenericInstance}
    (h₁ : InstancePreserved x x') (h₂ : InstancePreserved x' x'') :
    InstancePreserved x x'' := by
  obtain ⟨a₁, b₁, d₁, e₁⟩ := h₁
  obtain ⟨a₂, b₂, d₂, e₂⟩ := h₂
  refine ⟨a₂.trans a₁, b₂.trans b₁, ?_, ?_⟩
  · intro h
    rw [d₂ (by rw [d₁ h]; exact h), d₁ h]
  · intro h
    rw [e₂ (by rw [e₁ h]; exact h), e₁ h]

theorem statePreserved_refl (s : SemState) : StatePreserved s s :=
  ⟨fun _ g h => ⟨g, h, genericPreserved_refl g⟩,
    fun _ x h => ⟨x, h, instancePreserved_refl x⟩⟩

theorem statePreserved_trans {s s' s'' : SemState}
    (h₁ : StatePreserved s s') (h₂ : StatePreserved s' s'') :
    StatePreserved s s'' := by
  refine ⟨fun i g hg => ?_, fun i x hx => ?_⟩
  · obtain ⟨g', hg', hp⟩ := h₁.1 i g hg
    obtain ⟨g'', hg'', hp'⟩ := h₂.1 i g' hg'
    exact ⟨g'', hg'', genericPreserved_trans hp hp'⟩
  · obtain ⟨x', hx', hp⟩ := h₁.2 i x hx
    obtain ⟨x'', hx'', hp'⟩ := h₂.2 i x' hx'
    exact ⟨x'', hx'', instancePreserved_trans hp hp'⟩

/-- Entries survive an append unchanged. -/
theorem getElem?_append_of_some {α : Type} {l : List α} {i : Nat} {x : α}
    (h : l[i]? = some x) (t : List α) : (l ++ t)[i]? = some x := by
  have hlt : i < l.length := (List.getElem?_eq_some.mp h).1
  rw [List.getElem?_append_left hlt]
  exact h

theorem setGenericBlock_preserves {g : Generic}
    {region : GenericInstIndex.Region} {b : InstBlockId}
    (h : g.GetEvalBlock region = InstBlockId.Invalid) :
    GenericPreserved g (setGenericBlock g region b) := by
  cases region with
  | Declaration =>
    rw [Generic.GetEvalBlock, if_pos rfl] at h
    rw [setGenericBlock, if_pos rfl]
    exact ⟨rfl, rfl, rfl, fun hc => absurd h hc, fun _ => rfl⟩
  | Definition =>
    rw [Generic.GetEvalBlock, if_neg (by decide)] at h
    rw [setGenericBlock, if_neg (by decide)]
    exact ⟨rfl, rfl, rfl, fun _ => rfl, fun hc => absurd h hc⟩

theorem setInstanceBlock_preserves {gi : GenericInstance}
    {region : GenericInstIndex.Region} {b : InstBlockId}
    (h : gi.GetValueBlock region = InstBlockId.Invalid) :
    InstancePreserved gi (setInstanceBlock gi region b) := by
  cases region with
  | Declaration =>
    rw [GenericInstance.GetValueBlock, if_pos rfl] at h
    rw [setInstanceBlock, if_pos rfl]
    exact ⟨rfl, rfl, fun hc => absurd h hc, fun _ => rfl⟩
  | Definition =>
    rw [GenericInstance.GetValueBlock, if_neg (by decide)] at h
    rw [setInstanceBlock, if_neg (by decide)]
    exact ⟨rfl, rfl, fun _ => rfl, fun hc => absurd h hc⟩

/-- Equation lemma for a successful `setEvalBlock` step. -/
theorem applyOp_setEvalBlock_some {s : SemState} {gid : GenericId}
    {region : GenericInstIndex.Region} {b : InstBlockId} {g0 : Generic}
    (hget : s.generics[gid.index.toNat]? = some g0)
    (hcond : g0.GetEvalBlock region = InstBlockId.Invalid ∧
      b ≠ InstBlockId.Invalid) :
    applyOp s (Op.setEvalBlock gid region b) =
      some ⟨s.generics.set gid.index.toNat (setGenericBlock g0 region b),
        s.instances⟩ := by
  simp only [applyOp, hget]
  rw [if_pos hcond]

/-- Equation lemma for a successful `setValueBlock` step. -/
theorem applyOp_setValueBlock_some {s : SemState} {iid : GenericInstanceId}
    {region : GenericInstIndex.Region} {b : InstBlockId}
    {x0 : GenericInstance}
    (hget : s.instances.generic_instances[iid.index.toNat]? = some x0)
    (hcond : x0.GetValueBlock region = InstBlockId.Invalid ∧
      b ≠ InstBlockId.Invalid) :
    applyOp s (Op.setValueBlock iid region b) =
      some ⟨s.generics,
        ⟨s.instances.generic_instances.set iid.index.toNat
          (setInstanceBlock x0 region b)⟩⟩ := by
  simp only [applyOp, hget]
  rw [if_pos hcond]

/-- Every single successful step preserves all existing entries. -/
theorem applyOp_preserves {s s' : SemState} {op : Op}
    (h : applyOp s op = some s') : StatePreserved s s' := by
  cases op with
  | makeGeneric d b =>
    simp only [applyOp, Option.some.injEq] at h
    subst h
    obtain ⟨t, ht⟩ := GetOrAdd_extends s.instances ⟨(s.generics.length : Int)⟩ b
    refine ⟨fun i g hg => ⟨g, ?_, genericPreserved_refl g⟩,
      fun i x hx => ⟨x, ?_, instancePreserved_refl x⟩⟩
    · exact getElem?_append_of_some hg _
    · simp only [create]
      rw [ht]
      exact getElem?_append_of_some hx t
  | opGetOrAdd g a =>
    simp only [applyOp, Option.some.injEq] at h
    subst h
    obtain ⟨t, ht⟩ := GetOrAdd_extends s.instances g a
    refine ⟨fun i g hg => ⟨g, hg, genericPreserved_refl g⟩,
      fun i x hx => ⟨x, ?_, instancePreserved_refl x⟩⟩
    rw [ht]
    exact getElem?_append_of_some hx t
  | setEvalBlock gid region b =>
    cases hget : s.generics[gid.index.toNat]? with
    | none =>
      simp only [applyOp, hget] at h
      exact Option.noConfusion h
    | some g0 =>
      by_cases hcond : g0.GetEvalBlock region = InstBlockId.Invalid ∧
          b ≠ InstBlockId.Invalid
      · rw [applyOp_setEvalBlock_some hget hcond] at h
        have hs := Option.some.inj h
        subst hs
        refine ⟨fun i g hg => ?_,
          fun i x hx => ⟨x, hx, instancePreserved_refl x⟩⟩
        by_cases hij : i = gid.index.toNat
        · subst hij
          have hgg : g = g0 := Option.some.inj (hg.symm.trans hget)
          subst hgg
          refine ⟨setGenericBlock g region b, ?_,
            setGenericBlock_preserves hcond.1⟩
          exact List.getElem?_set_eq_of_lt _ (List.getElem?_eq_some.mp hg).1
        · refine ⟨g, ?_, genericPreserved_refl g⟩
          rw [List.getElem?_set_ne fun hh => hij hh.symm]
          exact hg
      · simp only [applyOp, hget] at h
        rw [if_neg hcond] at h
        exact absurd h (by simp)
  | setValueBlock iid region b =>
    cases hget : s.instances.generic_instances[iid.index.toNat]? with
    | none =>
      simp only [applyOp, hget] at h
      exact Option.noConfusion h
    | some x0 =>
      by_cases hcond : x0.GetValueBlock region = InstBlockId.Invalid ∧
          b ≠ InstBlockId.Invalid
      · rw [applyOp_setValueBlock_some hget hcond] at h
        have hs := Option.some.inj h
        subst hs
        refine ⟨fun i g hg => ⟨g, hg, genericPreserved_refl g⟩,
          fun i x hx => ?_⟩
        by_cases hij : i = iid.index.toNat
        · subst hij
          have hxx : x = x0 := Option.some.inj (hx.symm.trans hget)
          subst hxx
          refine ⟨setInstanceBlock x region b, ?_,
            setInstanceBlock_preserves hcond.1⟩
          exact List.getElem?_set_eq_of_lt _ (List.getElem?_eq_some.mp hx).1
        · refine ⟨x, ?_, instancePreserved_refl x⟩
          rw [List.getElem?_set_ne fun hh => hij hh.symm]
          exact hx
      · simp only [applyOp, hget] at h
        rw [if_neg hcond] at h
        exact absurd h (by simp)

/-- Any successful run preserves all existing entries. -/
theorem runOps_preserves {s s' : SemState} {ops : List Op}
    (h : runOps s ops = some s') : StatePreserved s s' := by
  induction ops generalizing s with
  | nil =>
    simp only [runOps, Option.some.injEq] at h
    subst h
    exact statePreserved_refl s
  | cons op rest ih =>
    cases hstep : applyOp s op with
    | none =>
      simp only [runOps, hstep] at h
      exact Option.noConfusion h
    | some s₁ =>
      simp only [runOps, hstep] at h
      exact statePreserved_trans (applyOp_preserves hstep) (ih h)

/-- An entry of an appended-to list is an old entry or the appended one. -/
theorem getElem?_append_single {α : Type} {l : List α} {x y : α} {i : Nat}
    (h : (l ++ [x])[i]? = some y) : l[i]? = some y ∨ y = x := by
  by_cases hlt : i < l.length
  · rw [List.getElem?_append_left hlt] at h
    exact Or.inl h
  · right
    have hlen : i < (l ++ [x]).length := (List.getElem?_eq_some.mp h).1
    have hi : i = l.length := by
      simp only [List.length_append] at hlen
      simp only [List.length_cons, List.length_nil] at hlen
      omega
    subst hi
    rw [List.getElem?_append_right (Nat.le_refl _)] at h
    simp only [Nat.sub_self, List.getElem?_cons_zero] at h
    exact (Option.some.inj h).symm

/-- Claim C7: mutation discipline.  (1) Over any successful run of
operations, every generic keeps its `decl_id`, `bindings_id` and
`self_instance_id`, every instance keeps its `generic_id` and `args_id`,
and every eval-block or value-block field that is set (non-`Invalid`) is
never changed again — together with the write-guard in `applyOp`, each
such field is written at most once.  (2) A generic is created with both
eval blocks `Invalid`.  (3) Any instance present after a get-or-add step is
either a pre-existing one or the freshly created one, which starts with
both value blocks `Invalid`. -/
theorem mutation_discipline (s s' : SemState) (ops : List Op)
    (h : runOps s ops = some s') :
    StatePreserved s s' ∧
    (∀ d b s₁, applyOp s (Op.makeGeneric d b) = some s₁ →
      ∃ g, s₁.generics[s.generics.length]? = some g ∧
        g.decl_block_id = InstBlockId.Invalid ∧
        g.definition_block_id = InstBlockId.Invalid) ∧
    (∀ g a s₁, applyOp s (Op.opGetOrAdd g a) = some s₁ →
      ∀ i : Nat, ∀ x, s₁.instances.generic_instances[i]? = some x →
        s.instances.generic_instances[i]? = some x ∨
        (x.decl_block_id = InstBlockId.Invalid ∧
          x.definition_block_id = InstBlockId.Invalid ∧
          x.generic_id = g ∧ x.args_id = a)) := by
  refine ⟨runOps_preserves h, fun d b s₁ h₁ => ?_, fun g a s₁ h₁ i x hx => ?_⟩
  · simp only [applyOp, Option.some.injEq] at h₁
    subst h₁
    have hg : (create s.generics s.instances d b).1[s.generics.length]? =
        some { decl_id := d, bindings_id := b,
               self_instance_id :=
                 (s.instances.GetOrAdd ⟨(s.generics.length : Int)⟩ b).2 } := by
      simp only [create]
      rw [List.getElem?_append_right (Nat.le_refl _)]
      simp
    exact ⟨_, hg, rfl, rfl⟩
  · simp only [applyOp, Option.some.injEq] at h₁
    subst h₁
    cases hl : lookupIdx g a s.instances.generic_instances with
    | some j =>
      rw [GetOrAdd_hit hl] at hx
      exact Or.inl hx
    | none =>
      rw [GetOrAdd_miss hl] at hx
      cases getElem?_append_single hx with
      | inl hold => exact Or.inl hold
      | inr hnew =>
        subst hnew
        exact Or.inr ⟨rfl, rfl, rfl, rfl⟩

/-- Witness for C7 at a concrete input: one generic is created and its
declaration region sealed; the run succeeds and preserves the (empty)
initial state. -/
theorem mutation_discipline_witness :
    runOps ⟨[], ⟨[]⟩⟩
        [Op.makeGeneric ⟨0⟩ ⟨1⟩,
          Op.setEvalBlock ⟨0⟩ GenericInstIndex.Region.Declaration ⟨2⟩] =
      some ⟨[{ decl_id := ⟨0⟩, bindings_id := ⟨1⟩, self_instance_id := ⟨0⟩,
               decl_block_id := ⟨2⟩ }],
        ⟨[{ generic_id := ⟨0⟩, args_id := ⟨1⟩ }]⟩⟩ ∧
    StatePreserved ⟨[], ⟨[]⟩⟩
      ⟨[{ decl_id := ⟨0⟩, bindings_id := ⟨1⟩, self_instance_id := ⟨0⟩,
          decl_block_id := ⟨2⟩ }],
        ⟨[{ generic_id := ⟨0⟩, args_id := ⟨1⟩ }]⟩⟩ :=
  ⟨by decide,
    (mutation_discipline ⟨[], ⟨[]⟩⟩
      ⟨[{ decl_id := ⟨0⟩, bindings_id := ⟨1⟩, self_instance_id := ⟨0⟩,
          decl_block_id := ⟨2⟩ }],
        ⟨[{ generic_id := ⟨0⟩, args_id := ⟨1⟩ }]⟩⟩
      [Op.makeGeneric ⟨0⟩ ⟨1⟩,
        Op.setEvalBlock ⟨0⟩ GenericInstIndex.Region.Declaration ⟨2⟩]
      (by decide)).1⟩

end CarbonSemIR
